import Mathlib

unseal Nat.gcd Rat.mul Rat.add Rat.sub Rat.inv

/-!
Shallow embedding of the leetmouse acceleration driver
(`src/driver/accel.c`) together with proofs about it.

Modelling conventions:
* C `float` values are modelled as exact rationals (`ℚ`); machine
  integers (`int`, `long`, `ktime_t`) as unbounded `ℤ`.
* `B_sqrt` and `B_pow` live in `float.h`, which is not part of the
  sources; they are modelled as an abstract numeric oracle, so every
  theorem below is quantified over the oracle.
* `atof` lives in `util.c`, which is not part of the sources; it is an
  abstract parameter of the reload step.
* The two transient FPU conditions of the driver
  (`irq_fpu_usable()` and the float-cast round-trip check) are
  modelled as explicit boolean inputs of one call, since in an exact
  arithmetic model the cast check would always succeed.
-/

/-- Modelled from the spec: `B_sqrt` and `B_pow` are the square root
and power routines of the missing `float.h`; they are kept abstract,
as a pair of functions handed to the computation. -/
structure Oracle where
  sqrt : ℚ → ℚ
  pow : ℚ → ℚ → ℚ

/-- The constant `e` of `accelerate` (`const float e = 2.71828f`). -/
def eConst : ℚ := 271828 / 100000

/-- The live float parameters `g_*` plus `g_AccelerationMode`
(a byte parameter, updated instantly, not part of the reload). -/
structure Params where
  SpeedCap : ℚ
  Sensitivity : ℚ
  Acceleration : ℚ
  SensitivityCap : ℚ
  Offset : ℚ
  Exponent : ℚ
  Midpoint : ℚ
  ScrollsPerTick : ℚ
  AccelerationMode : ℤ
deriving DecidableEq

/-- The string forms `g_param_*` of the eight float parameters,
written externally through the module parameter surface. -/
structure PStrings where
  SpeedCap : String
  Sensitivity : String
  Acceleration : String
  SensitivityCap : String
  Offset : String
  Exponent : String
  Midpoint : String
  ScrollsPerTick : String
deriving DecidableEq

/-- All persistent state of `accel.c`: the static locals of
`accelerate` (`buffer_*`, `carry_*`, `last_ms`, `last`), the live
parameters, their string forms, the pending-update flag `g_update`
and the debounce timestamp `g_next_update`. -/
structure AccelState where
  buffer_x : ℤ
  buffer_y : ℤ
  buffer_whl : ℤ
  carry_x : ℚ
  carry_y : ℚ
  carry_whl : ℚ
  last_ms : ℚ
  last : ℤ
  params : Params
  pstr : PStrings
  update : Bool
  next_update : ℤ
deriving DecidableEq

/-- One raw input sample: the values behind the `x`, `y`, `wheel`
pointers on entry to `accelerate`. -/
structure AccelIn where
  x : ℤ
  y : ℤ
  wheel : ℤ
deriving DecidableEq

/-- The values behind the three pointers on exit, plus the returned
status (`0`, `-EBUSY` or `-EFAULT`). -/
structure AccelOut where
  x : ℤ
  y : ℤ
  wheel : ℤ
  status : ℤ
deriving DecidableEq

/-- Linux error number used by `return -EBUSY`. -/
def EBUSY : ℤ := 16

/-- Linux error number used by `status = -EFAULT`. -/
def EFAULT : ℤ := 14

/-- The 32-bit sentinel `-2147483648` checked by the final trap. -/
def INT_MIN : ℤ := -2147483648

/-- Modelled from the spec: `Leet_round` lives in `util.h`, which is
not part of the sources; the spec (section 4.5) asks for rounding to
the nearest integer with ties away from zero. -/
def Leet_round (x : ℚ) : ℤ :=
  if 0 ≤ x then ⌊x + (1 : ℚ) / 2⌋ else ⌈x - (1 : ℚ) / 2⌉

/-- The rounding step of `accelerate`: the rounded integer output
(`*x = Leet_round(&delta_x)`) together with the new fractional
remainder (`carry_x = delta_x - *x`). -/
def carryRound (v : ℚ) : ℤ × ℚ :=
  (Leet_round v, v - (Leet_round v : ℚ))

/-- The raw frame time `(now - last) / (1000 * 1000)`: 64-bit integer
division truncating toward zero, then converted to float. -/
def rawMs (now lastT : ℤ) : ℚ := ((Int.tdiv (now - lastT) 1000000 : ℤ) : ℚ)

/-- Lines 193-206 of `accelerate`: the raw frame time, replaced by the
previous accepted value when below 1, then clamped at 100. -/
def frameTime (now lastT : ℤ) (last_ms : ℚ) : ℚ :=
  let ms0 := rawMs now lastT
  let ms1 := if ms0 < 1 then last_ms else ms0
  if ms1 > 100 then 100 else ms1

/-- `updata_params` (lines 80-97): no-op unless the update flag is set
and `now` has reached `g_next_update`; otherwise clears the flag, sets
the next allowed update one second (`1000000000` ns) ahead and
re-parses all eight float parameters from their strings. -/
def updata_params (atof : String → ℚ) (now : ℤ) (st : AccelState) : AccelState :=
  if st.update = false then st
  else if now < st.next_update then st
  else
    { st with
      update := false
      next_update := now + 1000000000
      params := { st.params with
        SpeedCap := atof st.pstr.SpeedCap
        Sensitivity := atof st.pstr.Sensitivity
        Acceleration := atof st.pstr.Acceleration
        SensitivityCap := atof st.pstr.SensitivityCap
        Offset := atof st.pstr.Offset
        ScrollsPerTick := atof st.pstr.ScrollsPerTick
        Exponent := atof st.pstr.Exponent
        Midpoint := atof st.pstr.Midpoint } }

/-- The parameter set in force after the periodic update of a call at
time `now`. -/
def reloadedParams (atof : String → ℚ) (now : ℤ) (st : AccelState) : Params :=
  (updata_params atof now st).params

/-- Lines 212-222 of `accelerate`: the distance travelled, capped by
`SpeedCap` when that is nonzero, divided by the frame time, minus the
offset. -/
def rateOf (O : Oracle) (p : Params) (dx dy ms : ℚ) : ℚ :=
  let speed0 := O.sqrt (dx * dx + dy * dy)
  let speed1 := if p.SpeedCap ≠ 0 ∧ speed0 ≥ p.SpeedCap then p.SpeedCap else speed0
  speed1 / ms - p.Offset

/-- Lines 225-251 of `accelerate`: the curve applied to the rate.  The
switch runs only when the rate is positive; an unknown mode falls
through and leaves the rate itself as the multiplier. -/
def curveGain (O : Oracle) (p : Params) (rate : ℚ) : ℚ :=
  if rate > 0 then
    if p.AccelerationMode = 1 then
      rate * p.Acceleration + 1
    else if p.AccelerationMode = 2 then
      O.pow (rate * p.Acceleration + 1) p.Exponent
    else if p.AccelerationMode = 3 then
      p.Acceleration / (1 + O.pow eConst (p.Midpoint - rate))
    else rate
  else rate

/-- The scalar multiplier applied to both axes, as a function of the
merged deltas and the frame time. -/
def gainOf (O : Oracle) (p : Params) (dx dy ms : ℚ) : ℚ :=
  curveGain O p (rateOf O p dx dy ms)

/-- The body of `accelerate` once the FPU context has been entered and
the float casts have been validated (lines 184-292): merge and reset
the buffers, compute the frame time, run the periodic parameter
update, compute the gain, scale, add the carries, round, check the
sentinel trap, and on success store the new carries. -/
def accelFPU (O : Oracle) (atof : String → ℚ) (now : ℤ)
    (inp : AccelIn) (st : AccelState) : AccelOut × AccelState :=
  let delta_x : ℚ := ((inp.x + st.buffer_x : ℤ) : ℚ)
  let delta_y : ℚ := ((inp.y + st.buffer_y : ℤ) : ℚ)
  let delta_whl : ℚ := ((inp.wheel + st.buffer_whl : ℤ) : ℚ)
  let ms := frameTime now st.last st.last_ms
  let st1 := updata_params atof now
    { st with buffer_x := 0, buffer_y := 0, buffer_whl := 0,
              last := now, last_ms := ms }
  let p := st1.params
  let speed := gainOf O p delta_x delta_y ms
  let vx := delta_x * speed * p.Sensitivity + st1.carry_x
  let vy := delta_y * speed * p.Sensitivity + st1.carry_y
  let vw := delta_whl * (p.ScrollsPerTick / 3)
  let rx := carryRound vx
  let ry := carryRound vy
  let rw := carryRound vw
  if rx.1 = INT_MIN ∨ ry.1 = INT_MIN ∨ rw.1 = INT_MIN then
    (⟨rx.1, ry.1, rw.1, -EFAULT⟩, st1)
  else
    (⟨rx.1, ry.1, rw.1, 0⟩,
     { st1 with carry_x := rx.2, carry_y := ry.2, carry_whl := rw.2 })

/-- `accelerate` (lines 102-293).  `fpu_usable` models
`irq_fpu_usable()`; `castOk` models the first float trap (whether the
int-to-float casts round-tripped on the current FPU context).  On
either failure the sample is summed into the buffers and the call
returns with the pointers untouched. -/
def accelerate (O : Oracle) (atof : String → ℚ) (fpu_usable castOk : Bool)
    (now : ℤ) (inp : AccelIn) (st : AccelState) : AccelOut × AccelState :=
  if fpu_usable = false then
    (⟨inp.x, inp.y, inp.wheel, -EBUSY⟩,
     { st with buffer_x := st.buffer_x + inp.x,
               buffer_y := st.buffer_y + inp.y,
               buffer_whl := st.buffer_whl + inp.wheel })
  else if castOk = false then
    (⟨inp.x, inp.y, inp.wheel, -EFAULT⟩,
     { st with buffer_x := st.buffer_x + inp.x,
               buffer_y := st.buffer_y + inp.y,
               buffer_whl := st.buffer_whl + inp.wheel })
  else
    accelFPU O atof now inp st

/-- Iterated rounding stage of `accelerate` at a fixed per-axis
multiplier `k`: feed a list of deltas through `carryRound`, threading
the carry, and collect the rounded outputs with the final carry. -/
def carryRun (k c : ℚ) : List ℤ → List ℤ × ℚ
  | [] => ([], c)
  | d :: ds =>
    let r := carryRound ((d : ℚ) * k + c)
    let rest := carryRun k r.2 ds
    (r.1 :: rest.1, rest.2)

/-- External events touching the parameter store: a call of
`updata_params` at some time, the external surface setting the
pending-update flag, or the external surface rewriting the parameter
strings. -/
inductive PEvent where
  | call (now : ℤ)
  | setFlag
  | write (ps : PStrings)
deriving DecidableEq

/-- Effect of one parameter-store event on the state. -/
def pstep (atof : String → ℚ) (st : AccelState) : PEvent → AccelState
  | PEvent.call now => updata_params atof now st
  | PEvent.setFlag => { st with update := true }
  | PEvent.write ps => { st with pstr := ps }

/-- A whole trace of parameter-store events. -/
def prun (atof : String → ℚ) (st : AccelState) (es : List PEvent) : AccelState :=
  es.foldl (pstep atof) st

/-- A call of `updata_params` at `now` actually applies the reload:
the flag is set and `now` has reached the next-allowed timestamp. -/
def appliesAt (st : AccelState) (now : ℤ) : Prop :=
  st.update = true ∧ ¬ now < st.next_update

instance (st : AccelState) (now : ℤ) : Decidable (appliesAt st now) :=
  inferInstanceAs (Decidable (_ ∧ _))

/-- Erase the `SensitivityCap` parameter (live value and string) from
a state, for stating that the computation never depends on it. -/
def scrubP (p : Params) : Params := { p with SensitivityCap := 0 }

/-- Erase the `SensitivityCap` string from the string record. -/
def scrubStr (ps : PStrings) : PStrings := { ps with SensitivityCap := "" }

/-- Erase both `SensitivityCap` components from a whole state. -/
def scrubSC (st : AccelState) : AccelState :=
  { st with params := scrubP st.params, pstr := scrubStr st.pstr }

/-- The compiled-in defaults of `config.sample.h`. -/
def defaultParams : Params :=
  { SpeedCap := 0, Sensitivity := 1, Acceleration := 1 / 25,
    SensitivityCap := 11 / 5, Offset := 0, Exponent := 0,
    Midpoint := 1, ScrollsPerTick := 3, AccelerationMode := 1 }

/-- The stringified defaults produced by the `s(default)` macro. -/
def defaultStrings : PStrings :=
  { SpeedCap := "0.0f", Sensitivity := "1.0f", Acceleration := "0.04f",
    SensitivityCap := "2.2f", Offset := "0.0f", Exponent := "0.0f",
    Midpoint := "1.0f", ScrollsPerTick := "3.0f" }

/-- The initial state of the module: zero buffers and carries,
`last_ms = 1.0f`, zero-initialised timestamps, default parameters,
no pending update. -/
def initState : AccelState :=
  { buffer_x := 0, buffer_y := 0, buffer_whl := 0,
    carry_x := 0, carry_y := 0, carry_whl := 0,
    last_ms := 1, last := 0,
    params := defaultParams, pstr := defaultStrings,
    update := false, next_update := 0 }

/-- A concrete oracle for witnesses: square root is the identity, the
power function returns its base. -/
def O0 : Oracle := { sqrt := fun q => q, pow := fun a _ => a }

/-- A concrete parser for witnesses: every string parses to 0. -/
def atof0 : String → ℚ := fun _ => 0

/-- A concrete parser mapping the string "S" to 2147483648 and
everything else to 0, used to exhibit the final-trap path. -/
def atofBig : String → ℚ := fun s => if s = "S" then 2147483648 else 0

/-- A state with a pending reload whose parse will raise the
sensitivity to 2147483648, and with curve mode 0 (pass-through). -/
def stBig : AccelState :=
  { initState with
    params := { defaultParams with AccelerationMode := 0 }
    pstr := { defaultStrings with Sensitivity := "S" }
    update := true
    next_update := 0 }

/-- A state whose live sensitivity is already 2147483648 with curve
mode 0, so that an input of -1 rounds to the 32-bit sentinel. -/
def stTrap : AccelState :=
  { initState with
    params := { defaultParams with Sensitivity := 2147483648,
                                   AccelerationMode := 0 } }

/-- A copy of the initial state differing only in the
`SensitivityCap` value and string. -/
def stOtherSC : AccelState :=
  { initState with
    params := { defaultParams with SensitivityCap := 9 }
    pstr := { defaultStrings with SensitivityCap := "9.0f" } }

/-- Parameters with an unknown curve mode, for the pass-through
witness. -/
def pMode0 : Params := { defaultParams with AccelerationMode := 0 }

/-! ## Helper lemmas -/

theorem updata_params_carry_x (atof : String → ℚ) (now : ℤ) (s : AccelState) :
    (updata_params atof now s).carry_x = s.carry_x := by
  unfold updata_params; split_ifs <;> rfl

theorem updata_params_carry_y (atof : String → ℚ) (now : ℤ) (s : AccelState) :
    (updata_params atof now s).carry_y = s.carry_y := by
  unfold updata_params; split_ifs <;> rfl

theorem updata_params_carry_whl (atof : String → ℚ) (now : ℤ) (s : AccelState) :
    (updata_params atof now s).carry_whl = s.carry_whl := by
  unfold updata_params; split_ifs <;> rfl

theorem updata_params_buffer_x (atof : String → ℚ) (now : ℤ) (s : AccelState) :
    (updata_params atof now s).buffer_x = s.buffer_x := by
  unfold updata_params; split_ifs <;> rfl

theorem updata_params_buffer_y (atof : String → ℚ) (now : ℤ) (s : AccelState) :
    (updata_params atof now s).buffer_y = s.buffer_y := by
  unfold updata_params; split_ifs <;> rfl

theorem updata_params_buffer_whl (atof : String → ℚ) (now : ℤ) (s : AccelState) :
    (updata_params atof now s).buffer_whl = s.buffer_whl := by
  unfold updata_params; split_ifs <;> rfl

theorem updata_params_last (atof : String → ℚ) (now : ℤ) (s : AccelState) :
    (updata_params atof now s).last = s.last := by
  unfold updata_params; split_ifs <;> rfl

theorem updata_params_last_ms (atof : String → ℚ) (now : ℤ) (s : AccelState) :
    (updata_params atof now s).last_ms = s.last_ms := by
  unfold updata_params; split_ifs <;> rfl

theorem updata_params_mode (atof : String → ℚ) (now : ℤ) (s : AccelState) :
    (updata_params atof now s).params.AccelerationMode = s.params.AccelerationMode := by
  unfold updata_params; split_ifs <;> rfl

/-- The reload result does not depend on the buffer and timing fields
rewritten by `accelerate` just before the reload. -/
theorem updata_params_params_free (atof : String → ℚ) (now : ℤ) (st : AccelState)
    (a b c l : ℤ) (m : ℚ) :
    (updata_params atof now
      { st with buffer_x := a, buffer_y := b, buffer_whl := c,
                last := l, last_ms := m }).params = reloadedParams atof now st := by
  simp only [reloadedParams, updata_params]
  split_ifs <;> rfl

/-- On `true` FPU flags, `accelerate` is the FPU body. -/
theorem accelerate_tt (O : Oracle) (atof : String → ℚ) (now : ℤ)
    (inp : AccelIn) (st : AccelState) :
    accelerate O atof true true now inp st = accelFPU O atof now inp st := by
  simp [accelerate]

/-! ## Claim theorems -/

/-- C9: when acquisition of the FPU context fails, the sample is
summed into the buffers, the call returns `-EBUSY`
(ContextUnavailable), and the carries, the parameters, the last
timestamp and the last accepted frame time are unchanged. -/
theorem context_unavailable_effects (O : Oracle) (atof : String → ℚ) (castOk : Bool)
    (now : ℤ) (inp : AccelIn) (st : AccelState) :
    (accelerate O atof false castOk now inp st).1.status = -EBUSY ∧
    (accelerate O atof false castOk now inp st).2.buffer_x = st.buffer_x + inp.x ∧
    (accelerate O atof false castOk now inp st).2.buffer_y = st.buffer_y + inp.y ∧
    (accelerate O atof false castOk now inp st).2.buffer_whl = st.buffer_whl + inp.wheel ∧
    (accelerate O atof false castOk now inp st).2.carry_x = st.carry_x ∧
    (accelerate O atof false castOk now inp st).2.carry_y = st.carry_y ∧
    (accelerate O atof false castOk now inp st).2.carry_whl = st.carry_whl ∧
    (accelerate O atof false castOk now inp st).2.params = st.params ∧
    (accelerate O atof false castOk now inp st).2.last = st.last ∧
    (accelerate O atof false castOk now inp st).2.last_ms = st.last_ms := by
  simp [accelerate]

/-- C4: whenever the rate is not positive, or the acceleration mode is
none of 1, 2, 3, the multiplier applied to both axes is the rate
itself. -/
theorem gain_passthrough (O : Oracle) (p : Params) (dx dy ms : ℚ)
    (h : rateOf O p dx dy ms ≤ 0 ∨
         (p.AccelerationMode ≠ 1 ∧ p.AccelerationMode ≠ 2 ∧ p.AccelerationMode ≠ 3)) :
    gainOf O p dx dy ms = rateOf O p dx dy ms := by
  unfold gainOf curveGain
  rcases h with h | ⟨h1, h2, h3⟩
  · rw [if_neg (not_lt.mpr h)]
  · split_ifs <;> simp_all

/-- Witness for C4 at a concrete input: with curve mode 0 the gain of
the sample (3, 4) at 1 ms is the raw rate. -/
theorem gain_passthrough_applied :
    gainOf O0 pMode0 3 4 1 = rateOf O0 pMode0 3 4 1 :=
  gain_passthrough O0 pMode0 3 4 1 (Or.inr ⟨by decide, by decide, by decide⟩)

/-- C1: with a positive rate, the rate is the capped distance divided
by the frame time minus the offset, and the gain is
`rate * Acceleration + 1` in mode 1 (Linear),
`pow (rate * Acceleration + 1) Exponent` in mode 2 (Classic), and
`Acceleration / (1 + pow e (Midpoint - rate))` in mode 3 (Motivity),
where `e` is the source constant 2.71828 and `pow` is the oracle
model of `B_pow`. -/
theorem gain_mode_formulas (O : Oracle) (p : Params) (dx dy ms : ℚ)
    (hrate : 0 < rateOf O p dx dy ms) :
    rateOf O p dx dy ms =
      (if p.SpeedCap ≠ 0 ∧ O.sqrt (dx * dx + dy * dy) ≥ p.SpeedCap then p.SpeedCap
       else O.sqrt (dx * dx + dy * dy)) / ms - p.Offset ∧
    (p.AccelerationMode = 1 →
      gainOf O p dx dy ms = rateOf O p dx dy ms * p.Acceleration + 1) ∧
    (p.AccelerationMode = 2 →
      gainOf O p dx dy ms = O.pow (rateOf O p dx dy ms * p.Acceleration + 1) p.Exponent) ∧
    (p.AccelerationMode = 3 →
      gainOf O p dx dy ms =
        p.Acceleration / (1 + O.pow eConst (p.Midpoint - rateOf O p dx dy ms))) := by
  refine ⟨rfl, ?_, ?_, ?_⟩ <;> intro hm <;>
    · unfold gainOf curveGain
      rw [if_pos hrate]
      simp [hm]

/-- Witness for C1 at a concrete input: the default parameters are in
mode 1, and the sample (3, 4) at 1 ms gets the linear gain. -/
theorem gain_mode_formulas_applied :
    gainOf O0 defaultParams 3 4 1 =
      rateOf O0 defaultParams 3 4 1 * defaultParams.Acceleration + 1 :=
  (gain_mode_formulas O0 defaultParams 3 4 1 (by decide)).2.1 rfl

/-- C7: the frame time used by the curve is the measured timestamp
difference in milliseconds, replaced by the previous accepted value
when below 1 and clamped at 100, and on every cycle that reaches the
computation the accepted value is stored as the fallback for the next
call. -/
theorem frame_time_accepted (now lastT : ℤ) (lm : ℚ) (hlm : lm ≤ 100) :
    ((rawMs now lastT < 1 → frameTime now lastT lm = lm) ∧
     (1 ≤ rawMs now lastT → frameTime now lastT lm = min (rawMs now lastT) 100)) ∧
    (∀ (O : Oracle) (atof : String → ℚ) (inp : AccelIn) (st : AccelState),
      st.last = lastT → st.last_ms = lm →
      (accelerate O atof true true now inp st).2.last_ms = frameTime now lastT lm) := by
  constructor
  · constructor
    · intro h
      simp only [frameTime]
      rw [if_pos h, if_neg (not_lt.mpr hlm)]
    · intro h
      simp only [frameTime]
      rw [if_neg (not_lt.mpr h)]
      split_ifs with h2
      · rw [min_eq_right]
        linarith
      · rw [min_eq_left]
        linarith
  · intro O atof inp st h1 h2
    subst h1
    subst h2
    rw [accelerate_tt]
    simp only [accelFPU]
    split <;> simp [updata_params_last_ms]

/-- Witness for C7 at a concrete input: a 5 ms timestamp difference on
the initial state is accepted and stored. -/
theorem frame_time_accepted_applied :
    (accelerate O0 atof0 true true 5000000 ⟨1, 1, 0⟩ initState).2.last_ms =
      frameTime 5000000 0 1 :=
  (frame_time_accepted 5000000 0 1 (by decide)).2 O0 atof0 ⟨1, 1, 0⟩ initState rfl rfl

/-- A reload call that does not apply leaves the state untouched. -/
theorem updata_params_noop (atof : String → ℚ) (now : ℤ) (s : AccelState)
    (h : ¬ appliesAt s now) : updata_params atof now s = s := by
  unfold updata_params
  split_ifs with h1 h2
  · rfl
  · rfl
  · exact absurd ⟨by simpa using h1, h2⟩ h

/-- A reload call that applies clears the flag and pushes the
next-allowed timestamp one second ahead. -/
theorem updata_params_applied (atof : String → ℚ) (now : ℤ) (s : AccelState)
    (h : appliesAt s now) :
    (updata_params atof now s).update = false ∧
    (updata_params atof now s).next_update = now + 1000000000 := by
  obtain ⟨h1, h2⟩ := h
  unfold updata_params
  rw [if_neg (by simp [h1]), if_neg h2]
  exact ⟨rfl, rfl⟩

/-- No parameter-store event ever lowers the next-allowed timestamp. -/
theorem pstep_next_mono (atof : String → ℚ) (s : AccelState) (e : PEvent) :
    s.next_update ≤ (pstep atof s e).next_update := by
  cases e with
  | call now =>
    by_cases h : appliesAt s now
    · have h2 := (updata_params_applied atof now s h).2
      simp only [pstep, h2]
      have h3 := h.2
      omega
    · simp only [pstep, updata_params_noop atof now s h]
      exact le_refl _
  | setFlag => exact le_refl _
  | write ps => exact le_refl _

/-- The next-allowed timestamp is monotone along whole traces. -/
theorem prun_next_mono (atof : String → ℚ) (es : List PEvent) :
    ∀ s : AccelState, s.next_update ≤ (prun atof s es).next_update := by
  induction es with
  | nil => intro s; exact le_refl _
  | cons e es ih =>
    intro s
    exact le_trans (pstep_next_mono atof s e) (ih (pstep atof s e))

/-- Splitting a trace at a call event. -/
theorem prun_append_call (atof : String → ℚ) (s : AccelState)
    (es1 es2 : List PEvent) (t : ℤ) :
    prun atof s (es1 ++ PEvent.call t :: es2) =
      prun atof (updata_params atof t (prun atof s es1)) es2 := by
  simp [prun, List.foldl_append, pstep]

/-- C8: a reload call is a no-op unless the pending flag is set and
the next-allowed timestamp has been reached; an applying call clears
the flag and moves the next-allowed timestamp one second ahead; hence
along any trace of parameter-store events, two applying reload calls
are at least one second apart. -/
theorem reload_debounce (atof : String → ℚ) (st : AccelState)
    (es1 es2 : List PEvent) (t t2 : ℤ)
    (h1 : appliesAt (prun atof st es1) t)
    (h2 : appliesAt (prun atof st (es1 ++ PEvent.call t :: es2)) t2) :
    t + 1000000000 ≤ t2 ∧
    (∀ (now : ℤ) (s : AccelState), ¬ appliesAt s now → updata_params atof now s = s) ∧
    (∀ (now : ℤ) (s : AccelState), appliesAt s now →
      (updata_params atof now s).update = false ∧
      (updata_params atof now s).next_update = now + 1000000000) := by
  refine ⟨?_, fun now s h => updata_params_noop atof now s h,
          fun now s h => updata_params_applied atof now s h⟩
  have e1 := (updata_params_applied atof t (prun atof st es1) h1).2
  have e2 := prun_next_mono atof es2 (updata_params atof t (prun atof st es1))
  have e3 := h2.2
  rw [prun_append_call] at e3
  omega

/-- Witness for C8 on a concrete trace: a reload applies at time 0,
the flag is set again, and the next applying call can only happen at
time 1000000000. -/
theorem reload_debounce_applied : (0 : ℤ) + 1000000000 ≤ 1000000000 :=
  (reload_debounce atof0 stBig [] [PEvent.setFlag] 0 1000000000
    (by decide) (by decide)).1

/-- The modelled rounding is within half a unit of its argument. -/
theorem Leet_round_close (x : ℚ) : |x - (Leet_round x : ℚ)| ≤ 1 / 2 := by
  unfold Leet_round
  split_ifs with h
  · rw [abs_le]
    constructor
    · have h2 : ((⌊x + (1 : ℚ) / 2⌋ : ℤ) : ℚ) ≤ x + 1 / 2 := Int.floor_le _
      linarith
    · have h2 : x + (1 : ℚ) / 2 < (⌊x + (1 : ℚ) / 2⌋ : ℤ) + 1 := Int.lt_floor_add_one _
      linarith
  · rw [abs_le]
    constructor
    · have h2 : ((⌈x - (1 : ℚ) / 2⌉ : ℤ) : ℚ) < x - 1 / 2 + 1 := Int.ceil_lt_add_one _
      linarith
    · have h2 : x - (1 : ℚ) / 2 ≤ ((⌈x - (1 : ℚ) / 2⌉ : ℤ) : ℚ) := Int.le_ceil _
      linarith

/-- Telescoping identity of the carry chain: rounded outputs plus the
final carry equal the initial carry plus the ideal outputs. -/
theorem carryRun_total (k : ℚ) (ds : List ℤ) :
    ∀ c : ℚ, ((carryRun k c ds).1.sum : ℚ) + (carryRun k c ds).2 =
      c + (ds.map (fun d : ℤ => (d : ℚ) * k)).sum := by
  induction ds with
  | nil => intro c; simp [carryRun]
  | cons d ds ih =>
    intro c
    have h := ih ((d : ℚ) * k + c - (Leet_round ((d : ℚ) * k + c) : ℚ))
    simp only [carryRun, carryRound, List.map_cons, List.sum_cons, Int.cast_add]
    linarith

/-- The carry stays within half a unit along the whole chain. -/
theorem carryRun_carry (k : ℚ) (ds : List ℤ) :
    ∀ c : ℚ, |c| ≤ 1 / 2 → |(carryRun k c ds).2| ≤ 1 / 2 := by
  induction ds with
  | nil => intro c h; simpa [carryRun] using h
  | cons d ds ih =>
    intro c h
    simp only [carryRun]
    exact ih _ (by simpa [carryRound, abs_sub_comm] using
      Leet_round_close ((d : ℚ) * k + c))

/-- C6: feeding any list of deltas through the rounding-and-carry
stage of `accelerate` at a fixed gain `g` and sensitivity `s`, the sum
of the rounded integer outputs stays within one unit of the sum of the
ideal outputs, and the stored carry itself never leaves the half-unit
band. -/
theorem carry_conservation (g s c : ℚ) (ds : List ℤ) (hc : |c| ≤ 1 / 2) :
    |((carryRun (g * s) c ds).1.sum : ℚ) -
      (ds.map (fun d : ℤ => (d : ℚ) * (g * s))).sum| ≤ 1 ∧
    |(carryRun (g * s) c ds).2| ≤ 1 / 2 := by
  have h1 := carryRun_total (g * s) ds c
  have h2 := carryRun_carry (g * s) ds c hc
  refine ⟨?_, h2⟩
  have h3 : ((carryRun (g * s) c ds).1.sum : ℚ) -
      (ds.map (fun d : ℤ => (d : ℚ) * (g * s))).sum = c - (carryRun (g * s) c ds).2 := by
    linarith
  rw [h3]
  have h4 := abs_add c (-(carryRun (g * s) c ds).2)
  rw [abs_neg] at h4
  rw [sub_eq_add_neg]
  linarith [abs_le.mp hc, abs_le.mp h2]

/-- Witness for C6 on a concrete chain: two deltas at gain 1 and
sensitivity 1 starting from a zero carry. -/
theorem carry_conservation_applied :
    |((carryRun ((1 : ℚ) * 1) 0 [1, 2]).1.sum : ℚ) -
      (([1, 2] : List ℤ).map (fun d : ℤ => (d : ℚ) * ((1 : ℚ) * 1))).sum| ≤ 1 ∧
    |(carryRun ((1 : ℚ) * 1) 0 [1, 2]).2| ≤ 1 / 2 :=
  carry_conservation 1 1 0 [1, 2] (by decide)

/-- C5: on a successful cycle, each axis output is the merged delta
times the gain times the sensitivity plus the stored carry, rounded;
the wheel output is the merged wheel delta rescaled by
`ScrollsPerTick / 3` with no gain and no sensitivity; and each new
carry is the pre-rounding value minus the rounded output. -/
theorem accel_success_outputs (O : Oracle) (atof : String → ℚ) (now : ℤ)
    (inp : AccelIn) (st : AccelState)
    (h : (accelerate O atof true true now inp st).1.status = 0) :
    let p := reloadedParams atof now st
    let ms := frameTime now st.last st.last_ms
    let dx : ℚ := ((inp.x + st.buffer_x : ℤ) : ℚ)
    let dy : ℚ := ((inp.y + st.buffer_y : ℤ) : ℚ)
    let dw : ℚ := ((inp.wheel + st.buffer_whl : ℤ) : ℚ)
    let g := gainOf O p dx dy ms
    let vx := dx * g * p.Sensitivity + st.carry_x
    let vy := dy * g * p.Sensitivity + st.carry_y
    let vw := dw * (p.ScrollsPerTick / 3)
    (accelerate O atof true true now inp st).1.x = Leet_round vx ∧
    (accelerate O atof true true now inp st).1.y = Leet_round vy ∧
    (accelerate O atof true true now inp st).1.wheel = Leet_round vw ∧
    (accelerate O atof true true now inp st).2.carry_x = vx - (Leet_round vx : ℚ) ∧
    (accelerate O atof true true now inp st).2.carry_y = vy - (Leet_round vy : ℚ) ∧
    (accelerate O atof true true now inp st).2.carry_whl = vw - (Leet_round vw : ℚ) := by
  rw [accelerate_tt] at h ⊢
  simp only [accelFPU, carryRound, updata_params_params_free,
    updata_params_carry_x, updata_params_carry_y, updata_params_carry_whl] at h ⊢
  split at h
  · simp only [Prod.fst] at h
    norm_num [EFAULT] at h
  · next hcond =>
    rw [if_neg hcond]
    exact ⟨rfl, rfl, rfl, rfl, rfl, rfl⟩

/-- Witness for C5 at a concrete input: the sample (3, 4, 0) on the
initial state at 1 ms gets gain 2 and rounds to output 6 on x. -/
theorem accel_success_outputs_applied :
    (accelerate O0 atof0 true true 1000000 ⟨3, 4, 0⟩ initState).1.x = 6 :=
  ((accel_success_outputs O0 atof0 1000000 ⟨3, 4, 0⟩ initState (by decide)).1).trans
    (by decide)

/-- Counterexample to C2 as stated: a failing call (status `-EFAULT`
from the final sentinel trap) in which the live Sensitivity parameter
has changed, because the pending reload was applied earlier in the
same cycle. -/
theorem accel_failure_params_cex :
    (accelerate O0 atofBig true true 1000000 ⟨-1, 0, 0⟩ stBig).1.status = -EFAULT ∧
    (accelerate O0 atofBig true true 1000000 ⟨-1, 0, 0⟩ stBig).2.params.Sensitivity ≠
      stBig.params.Sensitivity := by
  decide

/-- C2 (amended): on every failing call the carries and the
acceleration mode are unchanged; on the context-unavailable and
cast-trap paths the parameters are unchanged and the buffers grow by
the sample; on the sentinel-trap path the parameters are those left by
the (possibly applied) periodic reload and the buffers have been
drained to zero. -/
theorem accel_failure_state (O : Oracle) (atof : String → ℚ) (fpu castOk : Bool)
    (now : ℤ) (inp : AccelIn) (st : AccelState)
    (h : (accelerate O atof fpu castOk now inp st).1.status ≠ 0) :
    ((accelerate O atof fpu castOk now inp st).2.carry_x = st.carry_x ∧
     (accelerate O atof fpu castOk now inp st).2.carry_y = st.carry_y ∧
     (accelerate O atof fpu castOk now inp st).2.carry_whl = st.carry_whl) ∧
    (accelerate O atof fpu castOk now inp st).2.params.AccelerationMode =
      st.params.AccelerationMode ∧
    (fpu = false ∨ castOk = false →
      (accelerate O atof fpu castOk now inp st).2.params = st.params ∧
      (accelerate O atof fpu castOk now inp st).2.buffer_x = st.buffer_x + inp.x ∧
      (accelerate O atof fpu castOk now inp st).2.buffer_y = st.buffer_y + inp.y ∧
      (accelerate O atof fpu castOk now inp st).2.buffer_whl = st.buffer_whl + inp.wheel) ∧
    (fpu = true → castOk = true →
      (accelerate O atof fpu castOk now inp st).2.params = reloadedParams atof now st ∧
      (accelerate O atof fpu castOk now inp st).2.buffer_x = 0 ∧
      (accelerate O atof fpu castOk now inp st).2.buffer_y = 0 ∧
      (accelerate O atof fpu castOk now inp st).2.buffer_whl = 0) := by
  cases fpu with
  | false => simp [accelerate]
  | true =>
    cases castOk with
    | false => simp [accelerate]
    | true =>
      rw [accelerate_tt] at h ⊢
      simp only [accelFPU, updata_params_params_free, updata_params_carry_x,
        updata_params_carry_y, updata_params_carry_whl, updata_params_buffer_x,
        updata_params_buffer_y, updata_params_buffer_whl, updata_params_mode] at h ⊢
      split at h
      · next hcond =>
        rw [if_pos hcond]
        simp only [updata_params_params_free, updata_params_carry_x,
          updata_params_carry_y, updata_params_carry_whl, updata_params_buffer_x,
          updata_params_buffer_y, updata_params_buffer_whl, updata_params_mode]
        simp [reloadedParams, updata_params_mode]
      · exact absurd rfl h

/-- Witness for the amended C2 on a concrete failing call: a
context-unavailable call leaves the x carry unchanged. -/
theorem accel_failure_state_applied :
    (accelerate O0 atof0 false true 0 ⟨1, 2, 3⟩ initState).2.carry_x =
      initState.carry_x :=
  (accel_failure_state O0 atof0 false true 0 ⟨1, 2, 3⟩ initState (by decide)).1.1

/-- Counterexample to C3 as stated: a call returning `-EFAULT` (from
the final sentinel trap) whose sample is not merged into the buffer;
the buffer ends at zero although the sample was (-1, 0, 0). -/
theorem numeric_fault_buffer_cex :
    (accelerate O0 atof0 true true 1000000 ⟨-1, 0, 0⟩ stTrap).1.status = -EFAULT ∧
    (accelerate O0 atof0 true true 1000000 ⟨-1, 0, 0⟩ stTrap).2.buffer_x ≠
      stTrap.buffer_x + (-1) := by
  decide

/-- C3 (amended): a `-EFAULT` return from the cast-validation trap
merges the sample into the buffers; a `-EFAULT` return from the final
sentinel trap instead leaves the buffers drained to zero, discarding
the sample and any buffered motion. -/
theorem numeric_fault_buffering (O : Oracle) (atof : String → ℚ) (castOk : Bool)
    (now : ℤ) (inp : AccelIn) (st : AccelState)
    (h : (accelerate O atof true castOk now inp st).1.status = -EFAULT) :
    (castOk = false →
      (accelerate O atof true castOk now inp st).2.buffer_x = st.buffer_x + inp.x ∧
      (accelerate O atof true castOk now inp st).2.buffer_y = st.buffer_y + inp.y ∧
      (accelerate O atof true castOk now inp st).2.buffer_whl = st.buffer_whl + inp.wheel) ∧
    (castOk = true →
      (accelerate O atof true castOk now inp st).2.buffer_x = 0 ∧
      (accelerate O atof true castOk now inp st).2.buffer_y = 0 ∧
      (accelerate O atof true castOk now inp st).2.buffer_whl = 0) := by
  cases castOk with
  | false => simp [accelerate]
  | true =>
    rw [accelerate_tt] at h ⊢
    simp only [accelFPU] at h ⊢
    split at h
    · next hcond =>
      rw [if_pos hcond]
      simp [updata_params_buffer_x, updata_params_buffer_y, updata_params_buffer_whl]
    · next hcond =>
      exfalso
      simp only [Prod.fst] at h
      norm_num [EFAULT] at h

/-- Witness for the amended C3 on a concrete cast-trap call: the
sample 5 is merged into the x buffer. -/
theorem numeric_fault_buffering_applied :
    (accelerate O0 atof0 true false 0 ⟨5, 0, 0⟩ initState).2.buffer_x =
      initState.buffer_x + 5 :=
  ((numeric_fault_buffering O0 atof0 false 0 ⟨5, 0, 0⟩ initState (by decide)).1 rfl).1

/-- Reloading respects the scrubbed-state relation: states equal up to
the `SensitivityCap` slots stay so across `updata_params`. -/
theorem updata_scrub_congr (atof : String → ℚ) (now : ℤ) (s1 s2 : AccelState)
    (h : scrubSC s1 = scrubSC s2) :
    scrubSC (updata_params atof now s1) = scrubSC (updata_params atof now s2) := by
  obtain ⟨bx1, by1, bw1, cx1, cy1, cw1, lm1, l1, p1, ps1, u1, nu1⟩ := s1
  obtain ⟨bx2, by2, bw2, cx2, cy2, cw2, lm2, l2, p2, ps2, u2, nu2⟩ := s2
  obtain ⟨pa1, pb1, pc1, pd1, pe1, pf1, pg1, ph1, pm1⟩ := p1
  obtain ⟨pa2, pb2, pc2, pd2, pe2, pf2, pg2, ph2, pm2⟩ := p2
  obtain ⟨qa1, qb1, qc1, qd1, qe1, qf1, qg1, qh1⟩ := ps1
  obtain ⟨qa2, qb2, qc2, qd2, qe2, qf2, qg2, qh2⟩ := ps2
  simp only [scrubSC, scrubP, scrubStr, AccelState.mk.injEq, Params.mk.injEq,
    PStrings.mk.injEq] at h
  obtain ⟨hbx, hby, hbw, hcx, hcy, hcw, hlm, hl,
    ⟨hpa, hpb, hpc, -, hpe, hpf, hpg, hph, hpm⟩,
    ⟨hqa, hqb, hqc, -, hqe, hqf, hqg, hqh⟩, hu, hnu⟩ := h
  subst hbx hby hbw hcx hcy hcw hlm hl hpa hpb hpc hpe hpf hpg hph hpm
  subst hqa hqb hqc hqe hqf hqg hqh hu hnu
  simp only [updata_params]
  split_ifs <;> simp [scrubSC, scrubP, scrubStr]

/-- The gain depends only on the scrubbed parameter set. -/
theorem gainOf_scrub_congr (O : Oracle) (p q : Params) (dx dy ms : ℚ)
    (h : scrubP p = scrubP q) :
    gainOf O p dx dy ms = gainOf O q dx dy ms := by
  obtain ⟨pa1, pb1, pc1, pd1, pe1, pf1, pg1, ph1, pm1⟩ := p
  obtain ⟨pa2, pb2, pc2, pd2, pe2, pf2, pg2, ph2, pm2⟩ := q
  simp only [scrubP, Params.mk.injEq] at h
  obtain ⟨hpa, hpb, hpc, -, hpe, hpf, hpg, hph, hpm⟩ := h
  subst hpa hpb hpc hpe hpf hpg hph hpm
  simp only [gainOf, rateOf, curveGain]

theorem scrubSC_buffer_x (s : AccelState) : (scrubSC s).buffer_x = s.buffer_x := rfl

theorem scrubSC_buffer_y (s : AccelState) : (scrubSC s).buffer_y = s.buffer_y := rfl

theorem scrubSC_buffer_whl (s : AccelState) : (scrubSC s).buffer_whl = s.buffer_whl := rfl

theorem scrubSC_carry_x (s : AccelState) : (scrubSC s).carry_x = s.carry_x := rfl

theorem scrubSC_carry_y (s : AccelState) : (scrubSC s).carry_y = s.carry_y := rfl

theorem scrubSC_carry_whl (s : AccelState) : (scrubSC s).carry_whl = s.carry_whl := rfl

theorem scrubSC_last_ms (s : AccelState) : (scrubSC s).last_ms = s.last_ms := rfl

theorem scrubSC_last (s : AccelState) : (scrubSC s).last = s.last := rfl

theorem scrubSC_update (s : AccelState) : (scrubSC s).update = s.update := rfl

theorem scrubSC_next_update (s : AccelState) : (scrubSC s).next_update = s.next_update := rfl

theorem scrubSC_params (s : AccelState) : (scrubSC s).params = scrubP s.params := rfl

theorem scrubSC_pstr (s : AccelState) : (scrubSC s).pstr = scrubStr s.pstr := rfl

theorem scrubP_Sensitivity (p : Params) : (scrubP p).Sensitivity = p.Sensitivity := rfl

theorem scrubP_ScrollsPerTick (p : Params) :
    (scrubP p).ScrollsPerTick = p.ScrollsPerTick := rfl

/-- C10: the outputs, the status, and all state outside the
`SensitivityCap` slots are independent of the `SensitivityCap`
parameter: two runs from states equal up to the `SensitivityCap`
value and its string produce identical output samples and statuses,
and states again equal up to those slots. -/
theorem sensitivity_cap_independent (O : Oracle) (atof : String → ℚ)
    (fpu castOk : Bool) (now : ℤ) (inp : AccelIn) (st1 st2 : AccelState)
    (h : scrubSC st1 = scrubSC st2) :
    (accelerate O atof fpu castOk now inp st1).1 =
      (accelerate O atof fpu castOk now inp st2).1 ∧
    scrubSC (accelerate O atof fpu castOk now inp st1).2 =
      scrubSC (accelerate O atof fpu castOk now inp st2).2 := by
  have hbx := congrArg AccelState.buffer_x h
  have hby2 := congrArg AccelState.buffer_y h
  have hbw := congrArg AccelState.buffer_whl h
  have hcx := congrArg AccelState.carry_x h
  have hcy := congrArg AccelState.carry_y h
  have hcw := congrArg AccelState.carry_whl h
  have hlm := congrArg AccelState.last_ms h
  have hl := congrArg AccelState.last h
  have hu := congrArg AccelState.update h
  have hnu := congrArg AccelState.next_update h
  have hp := congrArg AccelState.params h
  have hps := congrArg AccelState.pstr h
  simp only [scrubSC_buffer_x] at hbx
  simp only [scrubSC_buffer_y] at hby2
  simp only [scrubSC_buffer_whl] at hbw
  simp only [scrubSC_carry_x] at hcx
  simp only [scrubSC_carry_y] at hcy
  simp only [scrubSC_carry_whl] at hcw
  simp only [scrubSC_last_ms] at hlm
  simp only [scrubSC_last] at hl
  simp only [scrubSC_update] at hu
  simp only [scrubSC_next_update] at hnu
  simp only [scrubSC_params] at hp
  simp only [scrubSC_pstr] at hps
  have hbuf : scrubSC { st1 with buffer_x := st1.buffer_x + inp.x, buffer_y := st1.buffer_y + inp.y, buffer_whl := st1.buffer_whl + inp.wheel } = scrubSC { st2 with buffer_x := st2.buffer_x + inp.x, buffer_y := st2.buffer_y + inp.y, buffer_whl := st2.buffer_whl + inp.wheel } := by
    simp only [scrubSC]
    rw [hbx, hby2, hbw, hcx, hcy, hcw, hlm, hl, hp, hps, hu, hnu]
  cases fpu with
  | false => exact ⟨rfl, hbuf⟩
  | true =>
    cases castOk with
    | false => exact ⟨rfl, hbuf⟩
    | true =>
      rw [accelerate_tt, accelerate_tt]
      have hms : frameTime now st1.last st1.last_ms =
          frameTime now st2.last st2.last_ms := by rw [hl, hlm]
      have hdx : ((inp.x + st1.buffer_x : ℤ) : ℚ) = ((inp.x + st2.buffer_x : ℤ) : ℚ) := by
        rw [hbx]
      have hdy : ((inp.y + st1.buffer_y : ℤ) : ℚ) = ((inp.y + st2.buffer_y : ℤ) : ℚ) := by
        rw [hby2]
      have hdw : ((inp.wheel + st1.buffer_whl : ℤ) : ℚ) =
          ((inp.wheel + st2.buffer_whl : ℤ) : ℚ) := by rw [hbw]
      have ht : scrubSC { st1 with buffer_x := 0, buffer_y := 0, buffer_whl := 0, last := now, last_ms := frameTime now st1.last st1.last_ms } = scrubSC { st2 with buffer_x := 0, buffer_y := 0, buffer_whl := 0, last := now, last_ms := frameTime now st2.last st2.last_ms } := by
        simp only [scrubSC]
        rw [hcx, hcy, hcw, hms, hp, hps, hu, hnu]
      have hupd := updata_scrub_congr atof now _ _ ht
      simp only [accelFPU]
      set q1 := updata_params atof now { st1 with buffer_x := 0, buffer_y := 0, buffer_whl := 0, last := now, last_ms := frameTime now st1.last st1.last_ms }
      set q2 := updata_params atof now { st2 with buffer_x := 0, buffer_y := 0, buffer_whl := 0, last := now, last_ms := frameTime now st2.last st2.last_ms }
      have hqcx := congrArg AccelState.carry_x hupd
      have hqcy := congrArg AccelState.carry_y hupd
      have hqcw := congrArg AccelState.carry_whl hupd
      have hqbx := congrArg AccelState.buffer_x hupd
      have hqby := congrArg AccelState.buffer_y hupd
      have hqbw := congrArg AccelState.buffer_whl hupd
      have hqlm := congrArg AccelState.last_ms hupd
      have hql := congrArg AccelState.last hupd
      have hqu := congrArg AccelState.update hupd
      have hqnu := congrArg AccelState.next_update hupd
      have hqp := congrArg AccelState.params hupd
      have hqps := congrArg AccelState.pstr hupd
      simp only [scrubSC_carry_x] at hqcx
      simp only [scrubSC_carry_y] at hqcy
      simp only [scrubSC_carry_whl] at hqcw
      simp only [scrubSC_buffer_x] at hqbx
      simp only [scrubSC_buffer_y] at hqby
      simp only [scrubSC_buffer_whl] at hqbw
      simp only [scrubSC_last_ms] at hqlm
      simp only [scrubSC_last] at hql
      simp only [scrubSC_update] at hqu
      simp only [scrubSC_next_update] at hqnu
      simp only [scrubSC_params] at hqp
      simp only [scrubSC_pstr] at hqps
      have hsens := congrArg Params.Sensitivity hqp
      simp only [scrubP_Sensitivity] at hsens
      have hscr := congrArg Params.ScrollsPerTick hqp
      simp only [scrubP_ScrollsPerTick] at hscr
      have hgain : gainOf O q1.params ((inp.x + st1.buffer_x : ℤ) : ℚ)
            ((inp.y + st1.buffer_y : ℤ) : ℚ) (frameTime now st1.last st1.last_ms) =
          gainOf O q2.params ((inp.x + st2.buffer_x : ℤ) : ℚ)
            ((inp.y + st2.buffer_y : ℤ) : ℚ) (frameTime now st2.last st2.last_ms) := by
        rw [hdx, hdy, hms]
        exact gainOf_scrub_congr O q1.params q2.params _ _ _ hqp
      have hvx : ((inp.x + st1.buffer_x : ℤ) : ℚ) *
            gainOf O q1.params ((inp.x + st1.buffer_x : ℤ) : ℚ)
              ((inp.y + st1.buffer_y : ℤ) : ℚ) (frameTime now st1.last st1.last_ms) *
            q1.params.Sensitivity + q1.carry_x =
          ((inp.x + st2.buffer_x : ℤ) : ℚ) *
            gainOf O q2.params ((inp.x + st2.buffer_x : ℤ) : ℚ)
              ((inp.y + st2.buffer_y : ℤ) : ℚ) (frameTime now st2.last st2.last_ms) *
            q2.params.Sensitivity + q2.carry_x := by
        rw [hgain, hdx, hsens, hqcx]
      have hvy : ((inp.y + st1.buffer_y : ℤ) : ℚ) *
            gainOf O q1.params ((inp.x + st1.buffer_x : ℤ) : ℚ)
              ((inp.y + st1.buffer_y : ℤ) : ℚ) (frameTime now st1.last st1.last_ms) *
            q1.params.Sensitivity + q1.carry_y =
          ((inp.y + st2.buffer_y : ℤ) : ℚ) *
            gainOf O q2.params ((inp.x + st2.buffer_x : ℤ) : ℚ)
              ((inp.y + st2.buffer_y : ℤ) : ℚ) (frameTime now st2.last st2.last_ms) *
            q2.params.Sensitivity + q2.carry_y := by
        rw [hgain, hdy, hsens, hqcy]
      have hvw : ((inp.wheel + st1.buffer_whl : ℤ) : ℚ) *
            (q1.params.ScrollsPerTick / 3) =
          ((inp.wheel + st2.buffer_whl : ℤ) : ℚ) * (q2.params.ScrollsPerTick / 3) := by
        rw [hdw, hscr]
      rw [hvx, hvy, hvw]
      split_ifs with hC
      · exact ⟨rfl, hupd⟩
      · refine ⟨rfl, ?_⟩
        simp only [scrubSC]
        rw [hqbx, hqby, hqbw, hqlm, hql, hqp, hqps, hqu, hqnu]

/-- Witness for C10 at a concrete input: two initial states differing
only in the SensitivityCap value and string produce the same output
and scrub-equal states. -/
theorem sensitivity_cap_independent_applied :
    (accelerate O0 atof0 true true 1000000 ⟨3, 4, 0⟩ initState).1 =
      (accelerate O0 atof0 true true 1000000 ⟨3, 4, 0⟩ stOtherSC).1 ∧
    scrubSC (accelerate O0 atof0 true true 1000000 ⟨3, 4, 0⟩ initState).2 =
      scrubSC (accelerate O0 atof0 true true 1000000 ⟨3, 4, 0⟩ stOtherSC).2 :=
  sensitivity_cap_independent O0 atof0 true true 1000000 ⟨3, 4, 0⟩ initState
    stOtherSC (by decide)
